import Mathlib

/-!
Shallow embedding of the caf_research repository: a CAF (Core-Audio-Format)
chunk parser (`src/unnamed/part_000`) and an Ogg/Opus page scanner
(`src/parseOgg.ts`).  Byte streams are `List Nat` (each element a byte value),
JavaScript 32-bit integer semantics are made explicit with `jsToInt32` /
`jsToUint32`, and fallible code returns `Except`.  IEEE-754 doubles are
represented by their raw big-endian bit patterns (a `Nat`), since no claim
inspects a floating-point value.
-/

namespace CafResearch

/-- Model of JavaScript's ToUint32 on an integral number. -/
def jsToUint32 (i : Int) : Nat := (i % 4294967296).toNat

/-- Model of JavaScript's ToInt32 on an integral number. -/
def jsToInt32 (i : Int) : Int :=
  let n := i % 4294967296
  if n < 2147483648 then n else n - 4294967296

/-- Model of the JavaScript expression `x << k` (shift of the ToInt32 image,
wrapping to a signed 32-bit result). -/
def jsShl (x : Int) (k : Nat) : Int := jsToInt32 ((jsToUint32 x) * 2 ^ k)

/-- Model of the JavaScript expression `x | y` on integral numbers. -/
def jsOr (x y : Int) : Int := jsToInt32 ((jsToUint32 x) ||| (jsToUint32 y))

/-! ### CRC-32 as implemented in `src/parseOgg.ts` (`makeCRCTable` / `crc32`)

The source builds a 256-entry table with
`c = c & 1 ? 0x04c11db7 ^ (c >>> 1) : c >>> 1` iterated eight times, and folds
`crc = (crc >>> 8) ^ crcTable[(crc ^ x[i]) & 0xff]` starting from `0 ^ -1`,
returning `(crc ^ -1) >>> 0`.  We track the unsigned-32-bit view of the crc
accumulator, which the JavaScript shift/xor operations act on faithfully. -/

/-- One inner iteration of `makeCRCTable`. -/
def crcStep (c : Nat) : Nat :=
  if c % 2 = 1 then 0x04c11db7 ^^^ (c / 2) else c / 2

/-- Entry `n` of the precomputed table `crcTable` (eight `crcStep` iterations). -/
def crcTableEntry (n : Nat) : Nat :=
  crcStep (crcStep (crcStep (crcStep (crcStep (crcStep (crcStep (crcStep n)))))))

/-- The `crc32` function of `src/parseOgg.ts`. -/
def crc32 (x : List Nat) : Nat :=
  (x.foldl (fun crc b => (crc / 256) ^^^ crcTableEntry ((crc ^^^ b) &&& 255))
    0xFFFFFFFF) ^^^ 0xFFFFFFFF

/-! ### Variable-length packet-size table (`packetsTable` in `src/unnamed/part_000`) -/

/-- Loop body of `packetsTable`: walk the bytes keeping the running accumulator
`cur` (a JavaScript 32-bit signed number, because `<<` and `|` wrap). -/
def packetsTableGo : List Nat → Int → List Int
  | [], _ => []
  | b :: bs, cur =>
    let cur2 := jsOr (jsShl cur 7) (Int.ofNat (b &&& 0x7f))
    if b &&& 0x80 = 0 then cur2 :: packetsTableGo bs 0
    else packetsTableGo bs cur2

/-- The `packetsTable` decoder of `src/unnamed/part_000`. -/
def packetsTable (data : List Nat) : List Int := packetsTableGo data 0

/-! ### CAF primitive decoders (`src/unnamed/part_000`)

Error kinds thrown by the CAF code.  The source has no end-of-stream error at
all: every `file.read` result is ignored, so end-of-stream silently leaves the
destination buffer zero-filled.  `invalidLen8` is the thrown
`"Invalid array length. Expected multiple of 8."` of `float64`/`int64`,
`invalidLen4` the corresponding length-4 check of `int32`, and `rangeFault`
a JavaScript `RangeError` (e.g. `new Uint8Array(negative)`). -/

inductive CafErr where
  | invalidLen8
  | invalidLen4
  | rangeFault
  deriving DecidableEq, Repr

/-- Big-endian byte value (DataView semantics, exact). -/
def beVal (a : List Nat) : Nat := a.foldl (fun r b => r * 256 + b) 0

/-- The `uint` accumulator of the source: `result = (result << 8) + byte` with
JavaScript's 32-bit wrap on `<<`. -/
def uint (a : List Nat) : Int :=
  a.foldl (fun r b => jsToInt32 (r * 256) + Int.ofNat b) 0

/-- The `float64` decoder: exactly 8 bytes or throw; the IEEE-754 double is
represented by its big-endian bit pattern. -/
def float64 (a : List Nat) : Except CafErr Nat :=
  if a.length = 8 then .ok (beVal a) else .error .invalidLen8

/-- The `int64` decoder: exactly 8 bytes or throw; `getBigInt64` big-endian,
two's complement.  (The source converts the bigint with `Number(...)`, which
is exact for all values appearing in the claims.) -/
def int64 (a : List Nat) : Except CafErr Int :=
  if a.length = 8 then
    .ok (if beVal a < 9223372036854775808 then (beVal a : Int)
         else (beVal a : Int) - 18446744073709551616)
  else .error .invalidLen8

/-- The `int32` decoder: exactly 4 bytes or throw; `getInt32` big-endian. -/
def int32 (a : List Nat) : Except CafErr Int :=
  if a.length = 4 then
    .ok (if beVal a < 2147483648 then (beVal a : Int)
         else (beVal a : Int) - 4294967296)
  else .error .invalidLen4

/-- JavaScript `TypedArray.slice(i, j)` for non-negative arguments: clamping,
never out of bounds. -/
def jsSliceNat (a : List Nat) (i j : Nat) : List Nat := (a.drop i).take (j - i)

/-- Sequential `.map` over a list where the body may throw (JavaScript
semantics: the first exception propagates). -/
def mapEx {α β ε : Type} (f : α → Except ε β) : List α → Except ε (List β)
  | [] => .ok []
  | x :: xs => do
    let y ← f x
    let ys ← mapEx f xs
    .ok (y :: ys)

/-! ### CAF record types and decoders -/

structure ICAFFileHeader where
  fileType : List Nat
  fileVersion : Int
  fileFlags : Int
  deriving DecidableEq, Repr

structure ICAFChunkHeader where
  chunkType : List Nat
  chunkSize : Int
  deriving DecidableEq, Repr

structure ICAFAudioFormat where
  sampleRate : Nat
  formatID : List Nat
  formatFlags : Int
  bytesPerPacket : Int
  framesPerPacket : Int
  channelsPerFrame : Int
  bitsPerChannel : Int
  deriving DecidableEq, Repr

structure ICAFChannelDescription where
  channelLabel : Int
  channelFlags : Int
  coordinates : Nat × Nat × Nat
  deriving DecidableEq, Repr

structure ICAFChannelLayout where
  channelLayoutTag : Int
  channelBitmap : Int
  numberChannelDescriptions : Int
  channelDescriptions : List ICAFChannelDescription
  deriving DecidableEq, Repr

structure ICAFData where
  editCount : Int
  data : List Nat
  deriving DecidableEq, Repr

structure ICAFPacketTableHeader where
  numberPackets : Int
  numberValidFrames : Int
  primingFrames : Int
  remainderFrames : Int
  deriving DecidableEq, Repr

structure ICAFPacketTable where
  header : ICAFPacketTableHeader
  body : List Int
  deriving DecidableEq, Repr

/-- The `parseAudioFormat` decoder (fixed offsets 0,8,12,16,20,24,28). -/
def parseAudioFormat (a : List Nat) : Except CafErr ICAFAudioFormat := do
  let sampleRate ← float64 (jsSliceNat a 0 8)
  .ok { sampleRate
        formatID := jsSliceNat a 8 12
        formatFlags := uint (jsSliceNat a 12 16)
        bytesPerPacket := uint (jsSliceNat a 16 20)
        framesPerPacket := uint (jsSliceNat a 20 24)
        channelsPerFrame := uint (jsSliceNat a 24 28)
        bitsPerChannel := uint (jsSliceNat a 28 32) }

/-- The `parseChannelDescription` decoder (one fixed 32-byte record). -/
def parseChannelDescription (a : List Nat) : Except CafErr ICAFChannelDescription := do
  let c1 ← float64 (jsSliceNat a 8 16)
  let c2 ← float64 (jsSliceNat a 16 24)
  let c3 ← float64 (jsSliceNat a 24 32)
  .ok { channelLabel := uint (jsSliceNat a 0 4)
        channelFlags := uint (jsSliceNat a 4 8)
        coordinates := (c1, c2, c3) }

/-- The `parseChannelLayout` decoder: 12-byte header then
`Array(numberChannelDescriptions).fill(0).map(...)` over 32-byte slices.
`Array(n)` with a negative argument throws a `RangeError`. -/
def parseChannelLayout (a : List Nat) : Except CafErr ICAFChannelLayout :=
  let numberChannelDescriptions := uint (jsSliceNat a 8 12)
  if numberChannelDescriptions < 0 then .error .rangeFault
  else do
    let channelDescriptions ← mapEx
      (fun i => parseChannelDescription (jsSliceNat a (12 + i * 32) (12 + (i + 1) * 32)))
      (List.range numberChannelDescriptions.toNat)
    .ok { channelLayoutTag := uint (jsSliceNat a 0 4)
          channelBitmap := uint (jsSliceNat a 4 8)
          numberChannelDescriptions
          channelDescriptions }

/-- The `parseData` decoder. -/
def parseData (a : List Nat) : ICAFData :=
  { editCount := uint (jsSliceNat a 0 4), data := a.drop 4 }

/-- The `parsePacketTableHeader` decoder (fixed 24-byte header). -/
def parsePacketTableHeader (a : List Nat) : Except CafErr ICAFPacketTableHeader := do
  let numberPackets ← int64 (jsSliceNat a 0 8)
  let numberValidFrames ← int64 (jsSliceNat a 8 16)
  let primingFrames ← int32 (jsSliceNat a 16 20)
  let remainderFrames ← int32 (jsSliceNat a 20 24)
  .ok { numberPackets, numberValidFrames, primingFrames, remainderFrames }

/-- The `parsePacketTable` decoder. -/
def parsePacketTable (a : List Nat) : Except CafErr ICAFPacketTable := do
  let header ← parsePacketTableHeader (jsSliceNat a 0 24)
  .ok { header, body := packetsTable (a.drop 24) }

/-! ### CAF traversal engine

Every `file.read(buf)` in the CAF source ignores its result, so reading `n`
bytes yields the next `min n remaining` stream bytes zero-padded to length
`n`, and the stream advances; end-of-stream is invisible. -/

/-- A Deno `file.read` into a fresh zero-filled `n`-byte buffer with the
result ignored: returns the buffer and the remaining stream.  (The pad
count is written `n - (s.take n).length`, which equals `n - s.length`.) -/
def readInto (s : List Nat) (n : Nat) : List Nat × List Nat :=
  (s.take n ++ List.replicate (n - (s.take n).length) 0, s.drop n)

/-- The `readCafHeader` routine (reads 4 + 2 + 2 bytes). -/
def readCafHeader (s : List Nat) : ICAFFileHeader × List Nat :=
  let (mFileType, s1) := readInto s 4
  let (mFileVersion, s2) := readInto s1 2
  let (mFileFlags, s3) := readInto s2 2
  ({ fileType := mFileType, fileVersion := uint mFileVersion, fileFlags := uint mFileFlags }, s3)

/-- The `readChunkHeader` routine (reads 4 + 8 bytes; `int64` never throws
here because the buffer always has length 8). -/
def readChunkHeader (s : List Nat) : ICAFChunkHeader × List Nat :=
  let (mChunkType, s1) := readInto s 4
  let (mChunkSize, s2) := readInto s1 8
  ({ chunkType := mChunkType
     chunkSize := (int64 mChunkSize).toOption.getD 0 }, s2)

/-- The `readChunk` routine.  The call site passes `chunkSize * 8` and the
body divides by 8, so the net count is `chunkSize`; `new Uint8Array(n)` with
a negative `n` throws a `RangeError`. -/
def readChunk (s : List Nat) (size : Int) : Except CafErr (List Nat × List Nat) :=
  if size < 0 then .error .rangeFault
  else .ok (readInto s size.toNat)

/-- One decoded record surfaced by the CAF traversal loop (the loop logs the
chunk header for every non-terminal chunk and decodes known tags). -/
inductive CafRecord where
  | desc (h : ICAFChunkHeader) (d : ICAFAudioFormat)
  | chan (h : ICAFChunkHeader) (c : ICAFChannelLayout)
  | data (h : ICAFChunkHeader) (d : ICAFData)
  | pakt (h : ICAFChunkHeader) (p : ICAFPacketTable)
  | unknown (h : ICAFChunkHeader)
  deriving DecidableEq, Repr

/-- Outcome of a CAF traversal run. -/
inductive CafOutcome where
  | done
  | fault (e : CafErr)
  | outOfFuel
  deriving DecidableEq, Repr

/-- Dispatch of one non-terminal chunk body by its 4-character tag, exactly
as the `if` chain of the main loop ("desc", "chan", "data", "pakt"). -/
def decodeChunk (h : ICAFChunkHeader) (content : List Nat) : Except CafErr CafRecord :=
  if h.chunkType = [0x64, 0x65, 0x73, 0x63] then
    (parseAudioFormat content).map (CafRecord.desc h)
  else if h.chunkType = [0x63, 0x68, 0x61, 0x6e] then
    (parseChannelLayout content).map (CafRecord.chan h)
  else if h.chunkType = [0x64, 0x61, 0x74, 0x61] then
    .ok (CafRecord.data h (parseData content))
  else if h.chunkType = [0x70, 0x61, 0x6b, 0x74] then
    (parsePacketTable content).map (CafRecord.pakt h)
  else .ok (CafRecord.unknown h)

/-- The CAF `while (true)` chunk loop: read a chunk header, read the body,
stop when `chunkSize === 0` (checked only after the body read, which then
consumes zero bytes), otherwise decode and continue.  Returns the records in
order, the outcome, and the unconsumed remainder of the stream. -/
def cafLoop : Nat → List Nat → List CafRecord × CafOutcome × List Nat
  | 0, s => ([], .outOfFuel, s)
  | fuel + 1, s =>
    let (chunkHeader, s1) := readChunkHeader s
    match readChunk s1 chunkHeader.chunkSize with
    | .error e => ([], .fault e, s1)
    | .ok (chunkContent, s2) =>
      if chunkHeader.chunkSize = 0 then ([], .done, s2)
      else
        match decodeChunk chunkHeader chunkContent with
        | .error e => ([], .fault e, s2)
        | .ok r =>
          let (rs, out, rest) := cafLoop fuel s2
          (r :: rs, out, rest)

/-- The whole Container-A run: fixed file header, then the chunk loop. -/
def cafRun (fuel : Nat) (s : List Nat) :
    ICAFFileHeader × List CafRecord × CafOutcome × List Nat :=
  let (header, s1) := readCafHeader s
  let (records, out, rest) := cafLoop fuel s1
  (header, records, out, rest)

/-! ### Ogg page scanner (`src/parseOgg.ts`)

Error kinds thrown by the Ogg code: `eos` is the thrown
`"File stream finished parsing"`, `invalidLen` the length checks of
`uInt32Le` / `uInt64Le`, `magic` the `"Invalid magic signature."` of the two
Opus decoders, `rangeFault` a DataView out-of-bounds `RangeError`, and
`undefinedFault` the `TypeError` raised by touching `segments[0].buffer`
when `segments` is empty. -/

inductive OggErr where
  | eos
  | invalidLen
  | magic
  | rangeFault
  | undefinedFault
  deriving DecidableEq, Repr

/-- The `uInt32Le` decoder: exactly 4 bytes or throw; little-endian u32. -/
def uInt32Le (a : List Nat) : Except OggErr Nat :=
  if a.length = 4 then
    .ok (a.getD 0 0 + 256 * a.getD 1 0 + 65536 * a.getD 2 0 + 16777216 * a.getD 3 0)
  else .error .invalidLen

/-- The `uInt64Le` decoder: checks for exactly 8 bytes but then reads only
`getUint32(0, true)`, i.e. the low 32 bits. -/
def uInt64Le (a : List Nat) : Except OggErr Nat :=
  if a.length = 8 then
    .ok (a.getD 0 0 + 256 * a.getD 1 0 + 65536 * a.getD 2 0 + 16777216 * a.getD 3 0)
  else .error .invalidLen

/-- DataView `getUint8` on a segment buffer: out of bounds throws. -/
def dvGetUint8 (a : List Nat) (off : Nat) : Except OggErr Nat :=
  if off < a.length then .ok (a.getD off 0) else .error .rangeFault

/-- DataView `getUint16(off, true)`. -/
def dvGetUint16Le (a : List Nat) (off : Nat) : Except OggErr Nat :=
  if off + 2 ≤ a.length then .ok (a.getD off 0 + 256 * a.getD (off + 1) 0)
  else .error .rangeFault

/-- DataView `getUint32(off, true)`. -/
def dvGetUint32Le (a : List Nat) (off : Nat) : Except OggErr Nat :=
  if off + 4 ≤ a.length then
    .ok (a.getD off 0 + 256 * a.getD (off + 1) 0 + 65536 * a.getD (off + 2) 0 +
      16777216 * a.getD (off + 3) 0)
  else .error .rangeFault

/-- DataView `getInt32(off, true)` at a possibly negative computed offset
(the Opus comment decoder forms offsets from signed lengths). -/
def dvGetInt32Le (a : List Nat) (off : Int) : Except OggErr Int :=
  if 0 ≤ off ∧ off + 4 ≤ (a.length : Int) then
    (dvGetUint32Le a off.toNat).map
      (fun n => if n < 2147483648 then (n : Int) else (n : Int) - 4294967296)
  else .error .rangeFault

/-- JavaScript `TypedArray.slice(i, j)` with possibly negative indices
(negative values count from the end, the result clamps, never throws). -/
def jsSliceInt (a : List Nat) (i j : Int) : List Nat :=
  let n : Int := a.length
  let i2 := if i < 0 then max (n + i) 0 else min i n
  let j2 := if j < 0 then max (n + j) 0 else min j n
  ((a.drop i2.toNat).take (j2 - i2).toNat)

/-- Magic prefix `"OpusHead"`. -/
def opusHeadMagicSignature : List Nat := [0x4f, 0x70, 0x75, 0x73, 0x48, 0x65, 0x61, 0x64]

/-- Magic prefix `"OpusTags"`. -/
def opusCommentMagicSignature : List Nat := [0x4f, 0x70, 0x75, 0x73, 0x54, 0x61, 0x67, 0x73]

structure IOpusChannelMapping where
  streamCount : Nat
  coupledCount : Nat
  channelMapping : List Nat
  deriving DecidableEq, Repr

structure OpusHead where
  version : Nat
  channelCount : Nat
  preSkip : Nat
  inputSampleRate : Nat
  outputGain : Nat
  mappingFamily : Nat
  channelMapping : Option IOpusChannelMapping
  deriving DecidableEq, Repr

structure OpusTags where
  vendorString : List Nat
  userCommentString : List (List Nat)
  deriving DecidableEq, Repr

/-- The `parseOpusHeader` decoder.  The argument is `segments[0]`, which may
be absent (`none` models the JavaScript `undefined`, whose `.buffer` access
throws a `TypeError` before anything else). -/
def parseOpusHeader (ao : Option (List Nat)) : Except OggErr OpusHead :=
  match ao with
  | none => .error .undefinedFault
  | some a =>
    if a.take 8 = opusHeadMagicSignature then do
      let version ← dvGetUint8 a 8
      let channelCount ← dvGetUint8 a 9
      let preSkip ← dvGetUint16Le a 10
      let inputSampleRate ← dvGetUint32Le a 12
      let outputGain ← dvGetUint16Le a 16
      let mappingFamily ← dvGetUint8 a 18
      if a.length > 19 then do
        let streamCount ← dvGetUint8 a 19
        let coupledCount ← dvGetUint8 a 20
        let channelMappings ← mapEx (fun i => dvGetUint8 a (21 + i)) (List.range channelCount)
        .ok { version, channelCount, preSkip, inputSampleRate, outputGain, mappingFamily
              channelMapping := some { streamCount, coupledCount, channelMapping := channelMappings } }
      else
        .ok { version, channelCount, preSkip, inputSampleRate, outputGain, mappingFamily
              channelMapping := none }
    else .error .magic

/-- The comment-reading `while (commentListLengthLeft > 0)` loop of
`parseOpusTags`.  `left` can fail to decrease (a comment length of `-4`
leaves it unchanged), so the loop is fuel-indexed; exhausted fuel models
divergence. -/
def opusTagsLoop (a : List Nat) (v L : Int) :
    Nat → Int → List (List Nat) → Except OggErr (Option (List (List Nat)))
  | 0, _, _ => .ok none
  | fuel + 1, left, acc =>
    if left > 0 then do
      let offset := L - left
      let len ← dvGetInt32Le a (12 + v + 4 + offset)
      let comment := jsSliceInt a (12 + v + 8 + offset) (12 + v + 8 + offset + len)
      opusTagsLoop a v L fuel (left - (len + 4)) (acc ++ [comment])
    else .ok (some acc)

/-- The `parseOpusTags` decoder (fuel-indexed because of `opusTagsLoop`);
`.ok none` means the comment loop did not terminate within the given fuel. -/
def parseOpusTags (fuel : Nat) (ao : Option (List Nat)) : Except OggErr (Option OpusTags) :=
  match ao with
  | none => .error .undefinedFault
  | some a =>
    if a.take 8 = opusCommentMagicSignature then do
      let vendorStringLength ← dvGetInt32Le a 8
      let vendorString := jsSliceInt a 12 (12 + vendorStringLength)
      let userCommentListLength ← dvGetInt32Le a (12 + vendorStringLength)
      let comments ← opusTagsLoop a vendorStringLength userCommentListLength fuel
        userCommentListLength []
      .ok (comments.map (fun userCommentStrings =>
        { vendorString, userCommentString := userCommentStrings }))
    else .error .magic

/-! ### The page scan loop -/

/-- One page report, mirroring the `report` object of the source plus the
`segments` list (used by the codec-header dispatch) and `crcInput`, the
merged cache over which `pageRealChecksum` was computed. -/
structure PageReport where
  structureVersion : Nat
  headerType : Nat
  isFreshPacket : Bool
  isBos : Bool
  isBoe : Bool
  absoluteGranulePosition : Nat
  streamSerialNumber : Nat
  pageSequenceNumber : Nat
  pageChecksum : Nat
  pageRealChecksum : Nat
  checksumPassed : Bool
  pageSegments : Nat
  segmentTable : List Nat
  segments : List (List Nat)
  crcInput : List Nat
  deriving DecidableEq, Repr

/-- The `read` helper: one byte, pushed onto the cache; throws at
end-of-stream. -/
def readByteC (cache s : List Nat) : Except OggErr (Nat × List Nat × List Nat) :=
  match s with
  | [] => .error .eos
  | b :: rest => .ok (b, cache ++ [b], rest)

/-- The `readMultiple` helper: an `n`-byte zero-filled buffer, filled with
`file.read` and pushed onto the cache.  Reading 0 bytes succeeds even at
end-of-stream (Deno resolves 0, not null); a positive request at exact
end-of-stream resolves null and throws; a short read zero-pads silently. -/
def readMultC (cache s : List Nat) (n : Nat) : Except OggErr (List Nat × List Nat × List Nat) :=
  if n = 0 then .ok ([], cache, s)
  else if s.isEmpty then .error .eos
  else
    let buf := s.take n ++ List.replicate (n - s.length) 0
    .ok (buf, cache ++ buf, s.drop n)

/-- The capture pattern `"OggS"`. -/
def oggsPattern : List Nat := [0x4f, 0x67, 0x67, 0x53]

/-- The capture-pattern scan at the top of the main loop: read one byte at a
time, comparing against the pattern; a mismatch `continue`s, restarting the
match at the byte after the mismatching one.  Returns every byte consumed
(the cache contribution, ending with the pattern) and the rest. -/
def syncScan : List Nat → Except OggErr (List Nat × List Nat)
  | [] => .error .eos
  | b0 :: r0 =>
    if b0 ≠ 0x4f then (syncScan r0).map (fun p => (b0 :: p.1, p.2)) else
    match r0 with
    | [] => .error .eos
    | b1 :: r1 =>
      if b1 ≠ 0x67 then (syncScan r1).map (fun p => (b0 :: b1 :: p.1, p.2)) else
      match r1 with
      | [] => .error .eos
      | b2 :: r2 =>
        if b2 ≠ 0x67 then (syncScan r2).map (fun p => (b0 :: b1 :: b2 :: p.1, p.2)) else
        match r2 with
        | [] => .error .eos
        | b3 :: r3 =>
          if b3 ≠ 0x53 then (syncScan r3).map (fun p => (b0 :: b1 :: b2 :: b3 :: p.1, p.2))
          else .ok ([b0, b1, b2, b3], r3)

/-- The per-segment read loop (`for i < pageSegments: readMultiple(segmentTable[i])`). -/
def readSegments (cache s : List Nat) : List Nat → Except OggErr (List (List Nat) × List Nat × List Nat)
  | [] => .ok ([], cache, s)
  | n :: ns => do
    let (seg, cache1, s1) ← readMultC cache s n
    let (segs, cache2, s2) ← readSegments cache1 s1 ns
    .ok (seg :: segs, cache2, s2)

/-- One iteration of the main `while (true)` loop up to the point where the
`report` object exists: capture-pattern scan, header fields, checksum over
the merged cache, lacing table, segments.  The cache is empty at entry
(the loop clears it at the end of the previous iteration). -/
def scanOnePage (s : List Nat) : Except OggErr (PageReport × List Nat) := do
  let (syncBytes, s1) ← syncScan s
  let (structureVersion, cache1, s2) ← readByteC syncBytes s1
  let (headerType, cache2, s3) ← readByteC cache1 s2
  let (granuleBuf, cache3, s4) ← readMultC cache2 s3 8
  let (serialBuf, cache4, s5) ← readMultC cache3 s4 4
  let (seqBuf, cache5, s6) ← readMultC cache4 s5 4
  let (checksumBuf, cache6, s7) ← readMultC cache5 s6 4
  let pageChecksum ← uInt32Le checksumBuf
  let crcInput := cache6
  let pageRealChecksum := crc32 crcInput
  let (pageSegments, cache7, s8) ← readByteC cache6 s7
  let (segmentTable, cache8, s9) ← readMultC cache7 s8 pageSegments
  let (segments, _, s10) ← readSegments cache8 s9 segmentTable
  let absoluteGranulePosition ← uInt64Le granuleBuf
  let streamSerialNumber ← uInt32Le serialBuf
  let pageSequenceNumber ← uInt32Le seqBuf
  .ok ({ structureVersion
         headerType
         isFreshPacket := headerType &&& 1 = 0
         isBos := (headerType &&& 2) / 2 = 1
         isBoe := (headerType &&& 4) / 4 = 1
         absoluteGranulePosition
         streamSerialNumber
         pageSequenceNumber
         pageChecksum
         pageRealChecksum
         checksumPassed := pageChecksum = pageRealChecksum
         pageSegments
         segmentTable
         segments
         crcInput }, s10)

/-- Outcome of an Ogg scanner run: a thrown error, the `pageSequenceNumber
=== 3` `throw new Error("Stop")`, or exhausted fuel.  `outOfFuel` is also
the stand-in for genuine divergence of the source program: the comment loop
of `parseOpusTags` can re-read a comment length of −4 at the same offset
forever, and that non-termination surfaces here for every fuel. -/
inductive ScanOutcome where
  | err (e : OggErr)
  | stop
  | outOfFuel
  deriving DecidableEq, Repr

/-- The codec-header dispatch after a report is logged: `parseOpusHeader` on
the sequence-0 page's first segment, `parseOpusTags` on the sequence-1
page's.  `.ok none` propagates `parseOpusTags`'s fuel exhaustion — the
model's stand-in for the real comment loop never terminating — so that it
is not mistaken for successful completion. -/
def dispatchPage (fuel : Nat) (r : PageReport) : Except OggErr (Option Unit) :=
  match
    (if r.pageSequenceNumber = 0
     then (parseOpusHeader r.segments.head?).map (fun _ => ()) else .ok ()) with
  | .error e => .error e
  | .ok _ =>
    if r.pageSequenceNumber = 1 then
      match parseOpusTags fuel r.segments.head? with
      | .error e => .error e
      | .ok none => .ok none
      | .ok (some _) => .ok (some ())
    else .ok (some ())

/-- The whole `while (true)` page loop: scan one page, log its report,
dispatch the codec headers, throw `Stop` at sequence number 3, reset the
cache, continue.  Returns the reports in order plus the outcome; a
fuel-exhausted (possibly divergent) comment loop yields `.outOfFuel`. -/
def runScanner : Nat → List Nat → List PageReport × ScanOutcome
  | 0, _ => ([], .outOfFuel)
  | fuel + 1, s =>
    match scanOnePage s with
    | .error e => ([], .err e)
    | .ok (r, rest) =>
      match dispatchPage (fuel + 1) r with
      | .error e => ([r], .err e)
      | .ok none => ([r], .outOfFuel)
      | .ok (some _) =>
        if r.pageSequenceNumber = 3 then ([r], .stop)
        else
          let (rs, out) := runScanner fuel rest
          (r :: rs, out)

/-! ### Test vectors -/

/-- An Ogg page with the given little-endian sequence-number bytes, zero
segments, and all other header fields zero. -/
def mkPage (seq : List Nat) : List Nat :=
  oggsPattern ++ [0, 0] ++ List.replicate 8 0 ++ List.replicate 4 0 ++ seq ++
    List.replicate 4 0 ++ [0]

/-- A page with `pageSequenceNumber = 2` and zero segments. -/
def pageSeq2 : List Nat := mkPage [2, 0, 0, 0]

/-- A page with `pageSequenceNumber = 0` and zero segments. -/
def pageSeq0 : List Nat := mkPage [0, 0, 0, 0]

/-- A page with `pageSequenceNumber = 1` and zero segments. -/
def pageSeq1 : List Nat := mkPage [1, 0, 0, 0]

/-- A page with `pageSequenceNumber = 3` and zero segments. -/
def pageSeq3 : List Nat := mkPage [3, 0, 0, 0]

/-- A CAF stream: (`"caff"`, 1, 0) file header, one `"desc"` chunk of size 32,
then a terminal zero-size chunk. -/
def cafDescStream : List Nat :=
  [0x63, 0x61, 0x66, 0x66, 0, 1, 0, 0] ++
  ([0x64, 0x65, 0x73, 0x63] ++ [0, 0, 0, 0, 0, 0, 0, 32]) ++
  List.replicate 32 0x11 ++
  ([0x66, 0x72, 0x65, 0x65] ++ List.replicate 8 0)

/-- A CAF stream truncated in the middle of a declared 32-byte `"desc"` body
(only 16 body bytes present). -/
def cafTruncatedStream : List Nat :=
  [0x63, 0x61, 0x66, 0x66, 0, 1, 0, 0] ++
  ([0x64, 0x65, 0x73, 0x63] ++ [0, 0, 0, 0, 0, 0, 0, 32]) ++
  List.replicate 16 0x22

/-- A CAF stream whose first chunk declares size −1 (CAF's "unknown size"
sentinel): `"caff"` header then a `"data"` chunk header with size bytes
`0xFF × 8`. -/
def cafUnknownSizeStream : List Nat :=
  [0x63, 0x61, 0x66, 0x66, 0, 1, 0, 0] ++
  ([0x64, 0x61, 0x74, 0x61] ++ List.replicate 8 0xFF)

/-- An `OpusTags` payload: magic, vendor length 0, comment-list byte budget 8,
one comment whose declared length 100 reaches far past the 22-byte payload
end, with 2 actual bytes left. -/
def tagsOverrunPayload : List Nat :=
  opusCommentMagicSignature ++ [0, 0, 0, 0] ++ [8, 0, 0, 0] ++ [100, 0, 0, 0] ++ [0xEE, 0xFF]

/-- The page report produced by scanning `pageSeq2`. -/
def pageSeq2Report : PageReport :=
  { structureVersion := 0
    headerType := 0
    isFreshPacket := true
    isBos := false
    isBoe := false
    absoluteGranulePosition := 0
    streamSerialNumber := 0
    pageSequenceNumber := 2
    pageChecksum := 0
    pageRealChecksum := 4257502748
    checksumPassed := false
    pageSegments := 0
    segmentTable := []
    segments := []
    crcInput := [0x4f, 0x67, 0x67, 0x53, 0, 0, 0, 0, 0, 0, 0, 0, 0, 0, 0, 0, 0, 0, 2, 0, 0, 0, 0, 0, 0, 0] }

/-- A channel-layout input with `descriptionCount = 2` but only 1.5 records
worth (48 bytes) of description data. -/
def chanTruncVec : List Nat := List.replicate 8 0 ++ [0, 0, 0, 2] ++ List.replicate 48 7

/-- An `OpusTags` payload whose vendor-string length (200) reaches far past
its 12-byte end. -/
def vendorOverrunVec : List Nat := opusCommentMagicSignature ++ [200, 0, 0, 0]

/-- A page report with sequence number 0 and no segments. -/
def zeroSegReport : PageReport :=
  { structureVersion := 0
    headerType := 0
    isFreshPacket := true
    isBos := false
    isBoe := false
    absoluteGranulePosition := 0
    streamSerialNumber := 0
    pageSequenceNumber := 0
    pageChecksum := 0
    pageRealChecksum := 0
    checksumPassed := false
    pageSegments := 0
    segmentTable := []
    segments := []
    crcInput := [] }

/-- An `OpusTags` payload on which the comment loop never terminates: the
magic, vendor length 0, comment-list byte budget 8, then the length field
0xFFFFFFFC = −4, so `commentListLengthLeft -= (-4) + 4` never decreases and
the same length is re-read at the same offset forever. -/
def divTagsSegment : List Nat :=
  opusCommentMagicSignature ++ [0, 0, 0, 0] ++ [8, 0, 0, 0] ++ [0xFC, 0xFF, 0xFF, 0xFF]

/-- A page with `pageSequenceNumber = 1` and one 20-byte segment carrying
`divTagsSegment`: the program hangs in the comment loop on this stream. -/
def divTagsStream : List Nat :=
  oggsPattern ++ [0, 0] ++ List.replicate 8 0 ++ List.replicate 4 0 ++ [1, 0, 0, 0] ++
    List.replicate 4 0 ++ [1] ++ [20] ++ divTagsSegment

/-- The page report produced by scanning `pageSeq3`. -/
def pageSeq3Report : PageReport :=
  { structureVersion := 0
    headerType := 0
    isFreshPacket := true
    isBos := false
    isBoe := false
    absoluteGranulePosition := 0
    streamSerialNumber := 0
    pageSequenceNumber := 3
    pageChecksum := 0
    pageRealChecksum := 4230262415
    checksumPassed := false
    pageSegments := 0
    segmentTable := []
    segments := []
    crcInput := [0x4f, 0x67, 0x67, 0x53, 0, 0, 0, 0, 0, 0, 0, 0, 0, 0, 0, 0, 0, 0, 3, 0, 0, 0, 0, 0, 0, 0] }

/-- The page report produced by scanning `divTagsStream`. -/
def divTagsReport : PageReport :=
  { structureVersion := 0
    headerType := 0
    isFreshPacket := true
    isBos := false
    isBoe := false
    absoluteGranulePosition := 0
    streamSerialNumber := 0
    pageSequenceNumber := 1
    pageChecksum := 0
    pageRealChecksum := 4293222313
    checksumPassed := false
    pageSegments := 1
    segmentTable := [20]
    segments := [divTagsSegment]
    crcInput := [0x4f, 0x67, 0x67, 0x53, 0, 0, 0, 0, 0, 0, 0, 0, 0, 0, 0, 0, 0, 0, 1, 0, 0, 0, 0, 0, 0, 0] }

deriving instance DecidableEq for Except

/-! ### Helper lemmas -/

theorem exBind_eq_ok {ε α β : Type} {x : Except ε α} {f : α → Except ε β} {b : β} :
    x >>= f = .ok b ↔ ∃ a, x = .ok a ∧ f a = .ok b := by
  cases x <;> simp [Bind.bind, Except.bind]

theorem exMap_eq_ok {ε α β : Type} {x : Except ε α} {f : α → β} {b : β} :
    Except.map f x = .ok b ↔ ∃ a, x = .ok a ∧ f a = b := by
  cases x with
  | error e => simp [Except.map]
  | ok a => simp [Except.map, eq_comm]

/-- Characterisation of a successful `readByteC`. -/
theorem readByteC_spec {cache s : List Nat} {b : Nat} {cache2 s2 : List Nat}
    (h : readByteC cache s = .ok (b, cache2, s2)) :
    cache2 = cache ++ [b] ∧ s = b :: s2 := by
  cases s with
  | nil => simp [readByteC] at h
  | cons x xs =>
    obtain ⟨h1, h2, h3⟩ : x = b ∧ cache ++ [x] = cache2 ∧ xs = s2 := by
      simpa [Prod.ext_iff] using Except.ok.inj h
    subst h1; subst h2; subst h3
    exact ⟨rfl, rfl⟩

/-- Characterisation of a successful `readMultC`. -/
theorem readMultC_spec {cache s : List Nat} {n : Nat} {buf cache2 s2 : List Nat}
    (h : readMultC cache s n = .ok (buf, cache2, s2)) :
    buf.length = n ∧ cache2 = cache ++ buf ∧ s2 = s.drop n := by
  unfold readMultC at h
  split at h
  next hn =>
    subst hn
    obtain ⟨h1, h2, h3⟩ : ([] : List Nat) = buf ∧ cache = cache2 ∧ s = s2 := by
      simpa [Prod.ext_iff] using Except.ok.inj h
    subst h1; subst h2; subst h3
    simp
  next hn =>
    split at h
    next => simp at h
    next hs =>
      obtain ⟨h1, h2, h3⟩ :
          s.take n ++ List.replicate (n - s.length) 0 = buf ∧
          cache ++ (s.take n ++ List.replicate (n - s.length) 0) = cache2 ∧
          s.drop n = s2 := by
        simpa [Prod.ext_iff] using Except.ok.inj h
      subst h1; subst h2; subst h3
      refine ⟨?_, rfl, rfl⟩
      have : ¬ s = [] := by simpa [List.isEmpty_iff] using hs
      simp only [List.length_append, List.length_take, List.length_replicate]
      omega

/-- A successful `readSegments` only consumes from the stream. -/
theorem readSegments_len :
    ∀ (ns : List Nat) (cache s : List Nat) {segs : List (List Nat)} {cache2 s2 : List Nat},
    readSegments cache s ns = .ok (segs, cache2, s2) → s2.length ≤ s.length := by
  intro ns
  induction ns with
  | nil =>
    intro cache s segs cache2 s2 h
    simp only [readSegments, Except.ok.injEq, Prod.mk.injEq] at h
    obtain ⟨-, -, h3⟩ := h
    subst h3
    exact le_refl _
  | cons n ns ih =>
    intro cache s segs cache2 s2 h
    simp only [readSegments] at h
    rw [exBind_eq_ok] at h
    obtain ⟨⟨seg, cache1, s1⟩, h1, h⟩ := h
    simp only at h
    rw [exBind_eq_ok] at h
    obtain ⟨⟨segs', cacheb, sb⟩, h2, h⟩ := h
    simp only [Except.ok.injEq, Prod.mk.injEq] at h
    obtain ⟨-, -, h3⟩ := h
    subst h3
    have hlen := ih cache1 s1 h2
    obtain ⟨-, -, hd⟩ := readMultC_spec h1
    subst hd
    exact le_trans hlen (by simp)

/-- Soundness of the capture-pattern scan: a successful scan consumed some
garbage prefix followed by exactly the capture pattern, and nothing else. -/
theorem syncScan_sound : ∀ (s : List Nat) (c rest : List Nat),
    syncScan s = .ok (c, rest) → ∃ g, c = g ++ oggsPattern ∧ s = c ++ rest := by
  intro s
  induction s using syncScan.induct with
  | case1 => intro c rest h; simp [syncScan] at h
  | case2 b0 r0 hb0 ih =>
    intro c rest h
    rw [syncScan.eq_def] at h
    dsimp only at h
    rw [if_pos hb0, exMap_eq_ok] at h
    obtain ⟨⟨c0, rest0⟩, hrec, heq⟩ := h
    obtain ⟨g, hg, hsplit⟩ := ih c0 rest0 hrec
    obtain ⟨hc, hrest⟩ : b0 :: c0 = c ∧ rest0 = rest := by simpa [Prod.ext_iff] using heq
    subst hc; subst hrest
    exact ⟨b0 :: g, by simp [hg], by simp [hsplit]⟩
  | case3 b0 hb0 =>
    intro c rest h
    rw [syncScan.eq_def] at h
    dsimp only at h
    rw [if_neg hb0] at h
    simp at h
  | case4 b0 hb0 b1 r1 hb1 ih =>
    intro c rest h
    rw [syncScan.eq_def] at h
    dsimp only at h
    rw [if_neg hb0, if_pos hb1, exMap_eq_ok] at h
    obtain ⟨⟨c0, rest0⟩, hrec, heq⟩ := h
    obtain ⟨g, hg, hsplit⟩ := ih c0 rest0 hrec
    obtain ⟨hc, hrest⟩ : b0 :: b1 :: c0 = c ∧ rest0 = rest := by simpa [Prod.ext_iff] using heq
    subst hc; subst hrest
    exact ⟨b0 :: b1 :: g, by simp [hg], by simp [hsplit]⟩
  | case5 b0 hb0 b1 hb1 =>
    intro c rest h
    rw [syncScan.eq_def] at h
    dsimp only at h
    rw [if_neg hb0, if_neg hb1] at h
    simp at h
  | case6 b0 hb0 b1 hb1 b2 r2 hb2 ih =>
    intro c rest h
    rw [syncScan.eq_def] at h
    dsimp only at h
    rw [if_neg hb0, if_neg hb1, if_pos hb2, exMap_eq_ok] at h
    obtain ⟨⟨c0, rest0⟩, hrec, heq⟩ := h
    obtain ⟨g, hg, hsplit⟩ := ih c0 rest0 hrec
    obtain ⟨hc, hrest⟩ : b0 :: b1 :: b2 :: c0 = c ∧ rest0 = rest := by
      simpa [Prod.ext_iff] using heq
    subst hc; subst hrest
    exact ⟨b0 :: b1 :: b2 :: g, by simp [hg], by simp [hsplit]⟩
  | case7 b0 hb0 b1 hb1 b2 hb2 =>
    intro c rest h
    rw [syncScan.eq_def] at h
    dsimp only at h
    rw [if_neg hb0, if_neg hb1, if_neg hb2] at h
    simp at h
  | case8 b0 hb0 b1 hb1 b2 hb2 b3 r3 hb3 ih =>
    intro c rest h
    rw [syncScan.eq_def] at h
    dsimp only at h
    rw [if_neg hb0, if_neg hb1, if_neg hb2, if_pos hb3, exMap_eq_ok] at h
    obtain ⟨⟨c0, rest0⟩, hrec, heq⟩ := h
    obtain ⟨g, hg, hsplit⟩ := ih c0 rest0 hrec
    obtain ⟨hc, hrest⟩ : b0 :: b1 :: b2 :: b3 :: c0 = c ∧ rest0 = rest := by
      simpa [Prod.ext_iff] using heq
    subst hc; subst hrest
    exact ⟨b0 :: b1 :: b2 :: b3 :: g, by simp [hg], by simp [hsplit]⟩
  | case9 b0 hb0 b1 hb1 b2 hb2 b3 r3 hb3 =>
    intro c rest h
    rw [syncScan.eq_def] at h
    dsimp only at h
    rw [if_neg hb0, if_neg hb1, if_neg hb2, if_neg hb3] at h
    obtain ⟨hc, hrest⟩ : [b0, b1, b2, b3] = c ∧ r3 = rest := by
      simpa [Prod.ext_iff] using Except.ok.inj h
    subst hc; subst hrest
    have e0 : b0 = 0x4f := by omega
    have e1 : b1 = 0x67 := by omega
    have e2 : b2 = 0x67 := by omega
    have e3 : b3 = 0x53 := by omega
    subst e0; subst e1; subst e2; subst e3
    exact ⟨[], rfl, rfl⟩

/-- Decomposition of a successfully scanned page: the checksum input is the
pre-sync garbage, then the capture pattern, then the 22 header bytes through
the checksum field; and the scan consumed at least the 4 pattern bytes. -/
theorem scanOnePage_parts {s : List Nat} {r : PageReport} {rest : List Nat}
    (h : scanOnePage s = .ok (r, rest)) :
    (∃ g t, r.crcInput = g ++ oggsPattern ++ t ∧ t.length = 22) ∧ rest.length + 4 ≤ s.length := by
  unfold scanOnePage at h
  rw [exBind_eq_ok] at h
  obtain ⟨⟨syncBytes, s1⟩, hsync, h⟩ := h
  dsimp only at h
  rw [exBind_eq_ok] at h
  obtain ⟨⟨sv, cache1, s2⟩, hr1, h⟩ := h
  dsimp only at h
  rw [exBind_eq_ok] at h
  obtain ⟨⟨ht, cache2, s3⟩, hr2, h⟩ := h
  dsimp only at h
  rw [exBind_eq_ok] at h
  obtain ⟨⟨granuleBuf, cache3, s4⟩, hr3, h⟩ := h
  dsimp only at h
  rw [exBind_eq_ok] at h
  obtain ⟨⟨serialBuf, cache4, s5⟩, hr4, h⟩ := h
  dsimp only at h
  rw [exBind_eq_ok] at h
  obtain ⟨⟨seqBuf, cache5, s6⟩, hr5, h⟩ := h
  dsimp only at h
  rw [exBind_eq_ok] at h
  obtain ⟨⟨checksumBuf, cache6, s7⟩, hr6, h⟩ := h
  dsimp only at h
  rw [exBind_eq_ok] at h
  obtain ⟨pageChecksum, hpc, h⟩ := h
  rw [exBind_eq_ok] at h
  obtain ⟨⟨pageSegments, cache7, s8⟩, hr7, h⟩ := h
  dsimp only at h
  rw [exBind_eq_ok] at h
  obtain ⟨⟨segmentTable, cache8, s9⟩, hr8, h⟩ := h
  dsimp only at h
  rw [exBind_eq_ok] at h
  obtain ⟨⟨segments, cache9, s10⟩, hr9, h⟩ := h
  dsimp only at h
  rw [exBind_eq_ok] at h
  obtain ⟨agp, hagp, h⟩ := h
  rw [exBind_eq_ok] at h
  obtain ⟨ssn, hssn, h⟩ := h
  rw [exBind_eq_ok] at h
  obtain ⟨psn, hpsn, h⟩ := h
  obtain ⟨hrrec, hrest⟩ := by simpa [Prod.ext_iff] using Except.ok.inj h
  obtain ⟨g, hgc, hsplit⟩ := syncScan_sound s syncBytes s1 hsync
  obtain ⟨hc1, hs1⟩ := readByteC_spec hr1
  obtain ⟨hc2, hs2⟩ := readByteC_spec hr2
  obtain ⟨hl3, hc3, hs3⟩ := readMultC_spec hr3
  obtain ⟨hl4, hc4, hs4⟩ := readMultC_spec hr4
  obtain ⟨hl5, hc5, hs5⟩ := readMultC_spec hr5
  obtain ⟨hl6, hc6, hs6⟩ := readMultC_spec hr6
  constructor
  · refine ⟨g, [sv] ++ [ht] ++ granuleBuf ++ serialBuf ++ seqBuf ++ checksumBuf, ?_, ?_⟩
    · rw [← hrrec]
      subst hc6; subst hc5; subst hc4; subst hc3; subst hc2; subst hc1
      simp [hgc]
    · simp [hl3, hl4, hl5, hl6]
  · obtain ⟨hl7, hc7, hs7⟩ := readMultC_spec hr8
    obtain ⟨hc0, hs0⟩ := readByteC_spec hr7
    have h9 : s10.length ≤ s9.length := readSegments_len segmentTable cache8 s9 hr9
    have hlen1 : s.length = syncBytes.length + s1.length := by
      rw [hsplit]; simp
    have hgl : 4 ≤ syncBytes.length := by
      rw [hgc]; simp [oggsPattern]
    have : rest.length ≤ s1.length := by
      subst hrest
      have e2 : s2.length ≤ s1.length := by rw [hs1]; simp
      have e3 : s3.length ≤ s2.length := by rw [hs2]; simp
      have e4 : s4.length ≤ s3.length := by rw [hs3]; simp
      have e5 : s5.length ≤ s4.length := by rw [hs4]; simp
      have e6 : s6.length ≤ s5.length := by rw [hs5]; simp
      have e7 : s7.length ≤ s6.length := by rw [hs6]; simp
      have e8 : s8.length ≤ s7.length := by rw [hs0]; simp
      have e9 : s9.length ≤ s8.length := by rw [hs7]; simp
      omega
    omega

/-- A byte list all of whose bytes have the continuation bit set never emits
a value from the variable-length decoder loop. -/
theorem packetsTableGo_all_continuation (suf : List Nat)
    (h : ∀ b ∈ suf, b &&& 0x80 ≠ 0) : ∀ cur, packetsTableGo suf cur = [] := by
  induction suf with
  | nil => intro cur; rfl
  | cons b bs ih =>
    intro cur
    rw [packetsTableGo]
    rw [if_neg (h b (by simp))]
    exact ih (fun x hx => h x (by simp [hx])) _

/-- Appending an incomplete (never-terminated) tail does not change the
decoded values. -/
theorem packetsTableGo_append_incomplete (suf : List Nat)
    (h : ∀ b ∈ suf, b &&& 0x80 ≠ 0) :
    ∀ (pre : List Nat) (cur : Int),
    packetsTableGo (pre ++ suf) cur = packetsTableGo pre cur := by
  intro pre
  induction pre with
  | nil =>
    intro cur
    simpa using packetsTableGo_all_continuation suf h cur
  | cons b bs ih =>
    intro cur
    rw [List.cons_append, packetsTableGo, packetsTableGo]
    by_cases hb : b &&& 0x80 = 0
    · rw [if_pos hb, if_pos hb, ih]
    · rw [if_neg hb, if_neg hb, ih]

/-- A 32-byte-short channel description throws the `float64` length error. -/
theorem parseChannelDescription_short {d : List Nat} (hd : d.length < 32) :
    parseChannelDescription d = .error .invalidLen8 := by
  have h3 : (jsSliceNat d 24 32).length ≠ 8 := by
    simp only [jsSliceNat, List.length_take, List.length_drop]
    omega
  by_cases h1 : (jsSliceNat d 8 16).length = 8
  · by_cases h2 : (jsSliceNat d 16 24).length = 8
    · simp [parseChannelDescription, float64, h1, h2, h3, Bind.bind, Except.bind]
    · simp [parseChannelDescription, float64, h1, h2, Bind.bind, Except.bind]
  · simp [parseChannelDescription, float64, h1, Bind.bind, Except.bind]

/-- A full 32-byte channel description decodes successfully. -/
theorem parseChannelDescription_full {d : List Nat} (hd : d.length = 32) :
    parseChannelDescription d = .ok
      { channelLabel := uint (jsSliceNat d 0 4)
        channelFlags := uint (jsSliceNat d 4 8)
        coordinates :=
          (beVal (jsSliceNat d 8 16), beVal (jsSliceNat d 16 24), beVal (jsSliceNat d 24 32)) } := by
  have h1 : (jsSliceNat d 8 16).length = 8 := by
    simp only [jsSliceNat, List.length_take, List.length_drop]; omega
  have h2 : (jsSliceNat d 16 24).length = 8 := by
    simp only [jsSliceNat, List.length_take, List.length_drop]; omega
  have h3 : (jsSliceNat d 24 32).length = 8 := by
    simp only [jsSliceNat, List.length_take, List.length_drop]; omega
  simp [parseChannelDescription, float64, h1, h2, h3, Bind.bind, Except.bind]

/-- If every element of the list either throws `e` or succeeds, and some
element throws `e`, the sequential map throws `e`. -/
theorem mapEx_error {α β : Type} {ε : Type} (f : α → Except ε β) (e : ε) :
    ∀ (l : List α), (∀ x ∈ l, f x = .error e ∨ ∃ y, f x = .ok y) →
    (∃ x ∈ l, f x = .error e) → mapEx f l = .error e := by
  intro l
  induction l with
  | nil => intro _ hex; simp at hex
  | cons x xs ih =>
    intro hall hex
    rcases hall x (by simp) with hx | ⟨y, hy⟩
    · simp [mapEx, hx, Bind.bind, Except.bind]
    · rcases hex with ⟨x2, hx2, he⟩
      rcases List.mem_cons.mp hx2 with rfl | hmem
      · simp [hy] at he
      · have htail := ih (fun z hz => hall z (by simp [hz])) ⟨x2, hmem, he⟩
        simp [mapEx, hy, htail, Bind.bind, Except.bind]

/-! ### Claim theorems -/

/-- C1 (counterexample): `crc32` of the ASCII bytes "123456789" does not
equal the standard CRC-32 reference value `0xCBF43926`: the table is built
from the non-reflected polynomial constant `0x04C11DB7` inside a reflected
(right-shifting) loop. -/
theorem crc32_reference_vector_mismatch :
    crc32 [0x31, 0x32, 0x33, 0x34, 0x35, 0x36, 0x37, 0x38, 0x39] ≠ 0xCBF43926 := by
  decide

/-- C1 (amended): `crc32` is table-driven with the reflected update loop,
initial value all-ones and final inversion, but its table is generated by
right-shifting with the constant `0x04C11DB7` (instead of the reflected
constant `0xEDB88320`), so on the ASCII bytes "123456789" it returns
`4233047017` (`0xFC4F2BE9`), not the standard `0xCBF43926`. -/
theorem crc32_reference_vector_value :
    crc32 [0x31, 0x32, 0x33, 0x34, 0x35, 0x36, 0x37, 0x38, 0x39] = 4233047017 := by
  decide

/-- C7: the packet-table trailing region decodes as independent big-endian
base-128 values: the back-to-back encoding of [1, 300, 16384] (with 300 as
[0x82, 0x2C]) decodes to exactly [1, 300, 16384], and a trailing incomplete
value (all continuation bits set, no terminating byte) is dropped without
error. -/
theorem packetsTable_roundtrip_and_drop (pre suf : List Nat)
    (h : ∀ b ∈ suf, b &&& 0x80 ≠ 0) :
    packetsTable [0x01, 0x82, 0x2c, 0x81, 0x80, 0x00] = [1, 300, 16384] ∧
    packetsTable (pre ++ suf) = packetsTable pre := by
  exact ⟨by decide, packetsTableGo_append_incomplete suf h pre 0⟩

/-- C7 (witness): instantiation at `pre = [1]`, `suf = [0x82]`. -/
theorem packetsTable_roundtrip_and_drop_w :
    (∀ b ∈ [0x82], b &&& 0x80 ≠ 0) ∧
    (packetsTable [0x01, 0x82, 0x2c, 0x81, 0x80, 0x00] = [1, 300, 16384] ∧
      packetsTable ([1] ++ [0x82]) = packetsTable [1]) :=
  ⟨by decide, packetsTable_roundtrip_and_drop [1] [0x82] (by decide)⟩

/-- C4 (code evaluated at the failing input): a stream whose `"desc"` chunk
declares 32 body bytes but ends after 16 is *not* aborted with any
end-of-stream error — the read results are ignored, the missing bytes are
zero-filled, the partial chunk is decoded and reported, and the traversal
then ends normally through the all-zero terminal header synthesised at
end-of-stream. -/
theorem cafTruncated_partial_chunk_reported :
    cafRun 3 cafTruncatedStream =
      ({ fileType := [0x63, 0x61, 0x66, 0x66], fileVersion := 1, fileFlags := 0 },
       [CafRecord.desc { chunkType := [0x64, 0x65, 0x73, 0x63], chunkSize := 32 }
          { sampleRate := 2459565876494606882
            formatID := [0x22, 0x22, 0x22, 0x22]
            formatFlags := 572662306
            bytesPerPacket := 0
            framesPerPacket := 0
            channelsPerFrame := 0
            bitsPerChannel := 0 }],
       CafOutcome.done, []) := by
  decide

/-- C6 (counterexample): a chunk header with size −1 (the CAF "unknown
size" sentinel) does not end the traversal by consuming zero further bytes:
`new Uint8Array(-1)` throws a `RangeError` and the run faults. -/
theorem negative_size_sentinel_faults :
    (cafRun 1 cafUnknownSizeStream).2.2.1 = CafOutcome.fault CafErr.rangeFault ∧
    (cafRun 1 cafUnknownSizeStream).2.1 = [] ∧
    CafOutcome.fault CafErr.rangeFault ≠ CafOutcome.done := by
  decide

/-- C10: a zero-segment page with sequence number 0 (or 1) makes the codec
header dispatch touch the non-existent `segments[0]`, failing the run with
the `undefined`-access fault, which is none of the four taxonomy errors
(end-of-stream, invalid-length, magic, range). -/
theorem zero_segment_dispatch_faults (fuel : Nat) (r : PageReport)
    (hseg : r.segments = [])
    (hseq : r.pageSequenceNumber = 0 ∨ r.pageSequenceNumber = 1) :
    dispatchPage fuel r = .error .undefinedFault ∧
    (runScanner 2 pageSeq0).2 = .err .undefinedFault ∧
    (runScanner 2 pageSeq0).1.length = 1 ∧
    (runScanner 2 pageSeq1).2 = .err .undefinedFault ∧
    OggErr.undefinedFault ≠ OggErr.eos ∧
    OggErr.undefinedFault ≠ OggErr.invalidLen ∧
    OggErr.undefinedFault ≠ OggErr.magic ∧
    OggErr.undefinedFault ≠ OggErr.rangeFault := by
  refine ⟨?_, by decide, by decide, by decide, by decide, by decide, by decide, by decide⟩
  rcases hseq with h0 | h1
  · simp [dispatchPage, h0, hseg, parseOpusHeader, Except.map]
  · simp [dispatchPage, h1, hseg, parseOpusHeader, parseOpusTags, Except.map]

/-- C10 (witness): instantiation at a concrete zero-segment report with
sequence number 0. -/
theorem zero_segment_dispatch_faults_w :
    zeroSegReport.segments = [] ∧
    (zeroSegReport.pageSequenceNumber = 0 ∨ zeroSegReport.pageSequenceNumber = 1) ∧
    dispatchPage 5 zeroSegReport = .error .undefinedFault :=
  ⟨rfl, Or.inl rfl, (zero_segment_dispatch_faults 5 zeroSegReport rfl (Or.inl rfl)).1⟩

/-- C2 (counterexample): on a stream with one garbage byte before the
capture pattern, the checksum is computed over a buffer that still contains
the garbage byte — the buffer does not start at the capture pattern. -/
theorem checksum_buffer_contains_presync_garbage :
    ((runScanner 2 (0xAA :: pageSeq2)).1.map (fun r => r.crcInput.take 5)) =
      [[0xAA, 0x4f, 0x67, 0x67, 0x53]] ∧
    ((runScanner 2 (0xAA :: pageSeq2)).1.map (fun r => r.crcInput.take 4)) ≠ [oggsPattern] := by
  decide

/-- C2 (amended): for every page the scanner completes, the checksum input
is all bytes consumed since the cache reset (possibly non-empty pre-sync
garbage and failed match attempts), then the capture pattern, then the 22
header bytes through the checksum field; the cache is reset only after a
page completes, not at synchronization. -/
theorem crcInput_decomposition (s : List Nat) (r : PageReport) (rest : List Nat)
    (h : scanOnePage s = .ok (r, rest)) :
    ∃ g t, r.crcInput = g ++ oggsPattern ++ t ∧ t.length = 22 :=
  (scanOnePage_parts h).1

/-- C2 (witness): instantiation at the concrete page `pageSeq2`. -/
theorem crcInput_decomposition_w :
    scanOnePage pageSeq2 = .ok (pageSeq2Report, []) ∧
    ∃ g t, pageSeq2Report.crcInput = g ++ oggsPattern ++ t ∧ t.length = 22 :=
  ⟨by decide, crcInput_decomposition pageSeq2 pageSeq2Report [] (by decide)⟩

/-- C3 (counterexample): the scanner does not keep a sliding window of the
last 4 bytes: on 3 garbage bytes whose last byte is 0x4F followed by the
capture pattern and a valid 0-segment page, the match attempt begun at the
garbage byte consumes into the pattern occurrence and the run reports zero
pages instead of one. -/
theorem sync_misses_overlapping_pattern :
    (runScanner 1 ([0, 0, 0x4f] ++ pageSeq2)).1 = [] ∧
    (runScanner 1 ([0, 0, 0x4f] ++ pageSeq2)).2 = .err .eos ∧
    (([0, 0, 0x4f] ++ pageSeq2).drop 3).take 4 = oggsPattern := by
  decide

/-- C3 (amended): a mismatch restarts the 4-byte match at the next byte
rather than sliding a window, so the scanner synchronizes at a pattern
occurrence only when no match attempt begun inside the preceding garbage
consumes into it; in particular, for any garbage prefix none of whose bytes
equals 0x4F, the scan consumes exactly the garbage plus the pattern, and
the stream of 3 such garbage bytes followed by the capture pattern and a
valid 0-segment page reports exactly one page. -/
theorem sync_skips_clean_garbage (g : List Nat) (hg : ∀ b ∈ g, b ≠ 0x4f) :
    syncScan (g ++ pageSeq2) = .ok (g ++ oggsPattern, pageSeq2.drop 4) ∧
    (runScanner 2 ([1, 2, 3] ++ pageSeq2)).1.map
      (fun r => (r.pageSequenceNumber, r.pageSegments)) = [(2, 0)] := by
  refine ⟨?_, by decide⟩
  induction g with
  | nil => decide
  | cons a g ih =>
    have ha : a ≠ 0x4f := hg a (by simp)
    have ihh := ih (fun b hb => hg b (by simp [hb]))
    rw [List.cons_append, syncScan.eq_def]
    dsimp only
    rw [if_pos ha, ihh]
    rfl

/-- C3 (witness): instantiation at the garbage prefix `[1, 2, 3]`. -/
theorem sync_skips_clean_garbage_w :
    (∀ b ∈ [1, 2, 3], b ≠ 0x4f) ∧
    (syncScan ([1, 2, 3] ++ pageSeq2) = .ok ([1, 2, 3] ++ oggsPattern, pageSeq2.drop 4) ∧
      (runScanner 2 ([1, 2, 3] ++ pageSeq2)).1.map
        (fun r => (r.pageSequenceNumber, r.pageSegments)) = [(2, 0)]) :=
  ⟨by decide, sync_skips_clean_garbage [1, 2, 3] (by decide)⟩

/-- C5 (counterexample): end-of-stream after one complete page (i.e.
between pages) throws the very same end-of-stream error as end-of-stream in
the middle of a page, so it is not a normal non-error termination; and a
page with sequence number 3 stops the run by throwing `Stop` even though
more pages follow, an intrinsic terminal condition. -/
theorem eos_between_pages_throws :
    (runScanner 2 pageSeq2).2 = .err .eos ∧
    (runScanner 2 pageSeq2).1.length = 1 ∧
    (runScanner 1 (pageSeq2.take 10)).2 = .err .eos ∧
    (runScanner 1 (pageSeq2.take 10)).1 = [] ∧
    (runScanner 5 (pageSeq3 ++ pageSeq2)).2 = .stop ∧
    (runScanner 5 (pageSeq3 ++ pageSeq2)).1.length = 1 := by
  decide

/-- On the divergent tags payload the comment loop never terminates: the
length field re-reads as -4 at the same offset for every fuel, the budget
never decreases, and the loop only ever exhausts its fuel. -/
theorem opusTagsLoop_diverges : ∀ (f : Nat) (acc : List (List Nat)),
    opusTagsLoop divTagsSegment 0 8 f 8 acc = .ok none := by
  intro f
  induction f with
  | zero => intro acc; rfl
  | succ n ih =>
    intro acc
    have step : opusTagsLoop divTagsSegment 0 8 (n + 1) 8 acc
        = opusTagsLoop divTagsSegment 0 8 n 8 (acc ++ [[]]) := rfl
    rw [step]
    exact ih _

/-- C5 (amended): the scanner does have an intrinsic terminal condition —
any page with sequence number 3 (whose dispatch completes) stops the run
with the thrown `Stop` error right after that page is reported, regardless
of remaining data; and end-of-stream between pages (at the start of the
next page scan) raises the very same fatal stream-finished error as a
mid-page end-of-stream, rather than terminating normally.  The scanner need
not even reach end-of-stream: on a stream whose sequence-1 page declares a
comment length of −4, the comment loop never terminates (modeled as fuel
exhaustion for every fuel). -/
theorem scanner_stop_is_intrinsic_and_eos_throws (fuel m : Nat) (s : List Nat)
    (r : PageReport) (rest : List Nat)
    (hscan : scanOnePage s = .ok (r, rest))
    (hdisp : dispatchPage (fuel + 1) r = .ok (some ()))
    (hseq : r.pageSequenceNumber = 3) :
    runScanner (fuel + 1) s = ([r], .stop) ∧
    runScanner (m + 1) [] = ([], .err .eos) ∧
    (runScanner (m + 1) divTagsStream).2 = .outOfFuel := by
  refine ⟨?_, ?_, ?_⟩
  · rw [runScanner, hscan]
    dsimp only
    rw [hdisp]
    dsimp only
    rw [if_pos hseq]
  · rfl
  · have hscan2 : scanOnePage divTagsStream = .ok (divTagsReport, []) := by decide
    have h8 : dvGetInt32Le divTagsSegment 8 = .ok 0 := by decide
    have h12 : dvGetInt32Le divTagsSegment 12 = .ok 8 := by decide
    have htags : parseOpusTags (m + 1) (some divTagsSegment) = .ok none := by
      unfold parseOpusTags
      dsimp only
      rw [if_pos (by decide : divTagsSegment.take 8 = opusCommentMagicSignature)]
      simp [h8, h12, Bind.bind, Except.bind, opusTagsLoop_diverges]
    have hdisp2 : dispatchPage (m + 1) divTagsReport = .ok none := by
      unfold dispatchPage
      simp [divTagsReport, htags]
    rw [runScanner, hscan2]
    dsimp only
    rw [hdisp2]

/-- C5 (witness): instantiation at the one-page sequence-3 stream
`pageSeq3` (with `fuel = m = 0`). -/
theorem scanner_stop_is_intrinsic_and_eos_throws_w :
    scanOnePage pageSeq3 = .ok (pageSeq3Report, []) ∧
    dispatchPage 1 pageSeq3Report = .ok (some ()) ∧
    pageSeq3Report.pageSequenceNumber = 3 ∧
    (runScanner 1 pageSeq3 = ([pageSeq3Report], .stop) ∧
      runScanner 1 [] = ([], .err .eos) ∧
      (runScanner 1 divTagsStream).2 = .outOfFuel) :=
  ⟨by decide, by decide, by decide,
    scanner_stop_is_intrinsic_and_eos_throws 0 0 pageSeq3 pageSeq3Report []
      (by decide) (by decide) (by decide)⟩

/-- C6 (amended): only a chunk size of exactly zero is the terminal
sentinel — it consumes zero further bytes and ends the traversal, for any
tag and any remaining stream; the (`"caff"`,1,0) / `"desc"`-of-32 /
terminal-zero example yields exactly one AudioFormatDescription record and
stops, consuming no bytes beyond the terminal header; but the format's
"unknown size" value −1 is not terminal (it faults, see the
counterexample). -/
theorem zero_sentinel_and_desc_example (fuel : Nat) (tag s : List Nat)
    (htag : tag.length = 4) :
    cafLoop (fuel + 1) (tag ++ List.replicate 8 0 ++ s) = ([], .done, s) ∧
    cafRun 3 (cafDescStream ++ [0xDE, 0xAD]) =
      ({ fileType := [0x63, 0x61, 0x66, 0x66], fileVersion := 1, fileFlags := 0 },
       [CafRecord.desc { chunkType := [0x64, 0x65, 0x73, 0x63], chunkSize := 32 }
          { sampleRate := 1229782938247303441
            formatID := [0x11, 0x11, 0x11, 0x11]
            formatFlags := 286331153
            bytesPerPacket := 286331153
            framesPerPacket := 286331153
            channelsPerFrame := 286331153
            bitsPerChannel := 286331153 }],
       CafOutcome.done, [0xDE, 0xAD]) := by
  constructor
  · match tag, htag with
    | [a, b, c, d], _ => rfl
  · decide

/-- C6 (witness): instantiation at a concrete tag, stream and suffix. -/
theorem zero_sentinel_and_desc_example_w :
    ([9, 9, 9, 9] : List Nat).length = 4 ∧
    cafLoop 1 ([9, 9, 9, 9] ++ List.replicate 8 0 ++ [5, 6]) = ([], .done, [5, 6]) :=
  ⟨by decide, (zero_sentinel_and_desc_example 0 [9, 9, 9, 9] [5, 6] (by decide)).1⟩

/-- C8 (counterexample): an 8-byte input is shorter than
`12 + 32 * descriptionCount` (the big-endian count read at offset 8 of the
truncated input is 0), yet channel-layout decoding succeeds instead of
failing. -/
theorem parseChannelLayout_short_header_succeeds :
    parseChannelLayout (List.replicate 8 0) =
      .ok { channelLayoutTag := 0, channelBitmap := 0, numberChannelDescriptions := 0,
            channelDescriptions := [] } ∧
    ((List.replicate 8 0 : List Nat).length : Int) <
      12 + 32 * uint (jsSliceNat (List.replicate 8 0) 8 12) := by
  decide

/-- C8 (amended): for inputs of at least 12 bytes whose (signed-decoded)
description count is non-negative, an input shorter than
`12 + 32 * descriptionCount` fails — with the `float64` invalid-array-length
error (the InvalidFieldLength kind), not a distinct TruncatedRecord error;
inputs shorter than 12 bytes can instead succeed (see the counterexample). -/
theorem parseChannelLayout_truncated_fails (a : List Nat)
    (h1 : 12 ≤ a.length) (h2 : 0 ≤ uint (jsSliceNat a 8 12))
    (h3 : (a.length : Int) < 12 + 32 * uint (jsSliceNat a 8 12)) :
    parseChannelLayout a = .error .invalidLen8 := by
  unfold parseChannelLayout
  rw [if_neg (by omega : ¬ uint (jsSliceNat a 8 12) < 0)]
  have hcount : a.length < 12 + 32 * (uint (jsSliceNat a 8 12)).toNat := by omega
  have key : mapEx
      (fun i => parseChannelDescription (jsSliceNat a (12 + i * 32) (12 + (i + 1) * 32)))
      (List.range (uint (jsSliceNat a 8 12)).toNat) = .error .invalidLen8 := by
    apply mapEx_error
    · intro i _
      by_cases hlen : (jsSliceNat a (12 + i * 32) (12 + (i + 1) * 32)).length < 32
      · exact Or.inl (parseChannelDescription_short hlen)
      · refine Or.inr ⟨_, parseChannelDescription_full ?_⟩
        simp only [jsSliceNat, List.length_take, List.length_drop] at hlen ⊢
        omega
    · refine ⟨(a.length - 12) / 32, List.mem_range.mpr ?_, ?_⟩
      · omega
      · apply parseChannelDescription_short
        simp only [jsSliceNat, List.length_take, List.length_drop]
        omega
  simp [key, Bind.bind, Except.bind]

/-- C8 (witness): instantiation at `descriptionCount = 2` with only 1.5
records worth (48 bytes) of description data. -/
theorem parseChannelLayout_truncated_fails_w :
    12 ≤ chanTruncVec.length ∧
    0 ≤ uint (jsSliceNat chanTruncVec 8 12) ∧
    (chanTruncVec.length : Int) < 12 + 32 * uint (jsSliceNat chanTruncVec 8 12) ∧
    parseChannelLayout chanTruncVec = .error .invalidLen8 :=
  ⟨by decide, by decide, by decide,
    parseChannelLayout_truncated_fails chanTruncVec (by decide) (by decide) (by decide)⟩

/-- C9 (counterexample): a per-comment length field (100) that reaches far
past the payload end does not abort decoding: `slice` clamps, the truncated
comment is kept, the budget underflows and the decoder returns a partial
record with no error at all. -/
theorem parseOpusTags_comment_overrun_partial_record :
    parseOpusTags 10 (some tagsOverrunPayload) =
      .ok (some { vendorString := [], userCommentString := [[0xEE, 0xFF]] }) ∧
    (tagsOverrunPayload.length : Int) < 12 + 0 + 8 + 0 + 100 := by
  decide

/-- C9 (amended): an oversized vendor-string length is fatal — the 4-byte
comment-count read at `12 + vendorStringLength` lands out of bounds and
throws a `RangeError` (the truncation kind of fault); but an oversized
per-comment length is only fatal when a subsequent 4-byte length read lands
out of bounds, since the comment bytes themselves are clamped (see the
counterexample). -/
theorem parseOpusTags_vendor_overrun_faults (fuel : Nat) (a : List Nat) (v : Int)
    (hm : a.take 8 = opusCommentMagicSignature)
    (hv : dvGetInt32Le a 8 = .ok v)
    (hover : (a.length : Int) < 12 + v + 4) :
    parseOpusTags fuel (some a) = .error .rangeFault := by
  have hnext : dvGetInt32Le a (12 + v) = .error .rangeFault := by
    unfold dvGetInt32Le
    rw [if_neg]
    intro ⟨_, hle⟩
    omega
  simp [parseOpusTags, hm, hv, hnext, Bind.bind, Except.bind]

/-- C9 (witness): instantiation at a 12-byte payload declaring a 200-byte
vendor string. -/
theorem parseOpusTags_vendor_overrun_faults_w :
    vendorOverrunVec.take 8 = opusCommentMagicSignature ∧
    dvGetInt32Le vendorOverrunVec 8 = .ok 200 ∧
    (vendorOverrunVec.length : Int) < 12 + 200 + 4 ∧
    parseOpusTags 10 (some vendorOverrunVec) = .error .rangeFault :=
  ⟨by decide, by decide, by decide,
    parseOpusTags_vendor_overrun_faults 10 vendorOverrunVec 200 (by decide) (by decide) (by decide)⟩

end CafResearch
